import Mathlib

/-!
Shallow embedding of the transcode-planning and transactional-replacement
logic of `src/av1_encoder/cli.py` (an AV1/Opus batch encoder), together
with theorems checking the natural-language specification against it.

Pure decision logic (`already_compliant`, `build_ffmpeg_cmd` and its
sub-decisions, `choose_ext`) is translated into Lean functions; the
filesystem-mutating code (`replace_file`, the no-replace branch of
`process_file`) is translated into small-step interpreters over an
explicit filesystem state, driven by an oracle of booleans that decides,
at each fallible OS call, whether the call succeeds or raises.
-/

/-! ## Python string coercions

The source relies on Python truthiness for optional strings (`x or d` is
`d` when `x` is `None` or the empty string) and on `str.lower` /
`str.startswith`.  We model the latter two character-wise on `String.data`
(ASCII-faithful, and kernel-reducible unlike `String.toLower`). -/

/-- Python truthiness of an optional string: `None` and `""` are falsy. -/
def pyTruthyS : Option String → Bool
  | none => false
  | some s => !(s == "")

/-- Python `x or d` for an optional string `x` and a string default `d`. -/
def pyOrStr (x : Option String) (d : String) : String :=
  if pyTruthyS x then x.getD "" else d

/-- Python `s.lower()`, character-wise. -/
def lowerStr (s : String) : String := ⟨s.data.map Char.toLower⟩

/-- Python `s.startswith(pre)`. -/
def beginsWith (pre s : String) : Bool := pre.data.isPrefixOf s.data

theorem strAppend_data (a b : String) : (a ++ b).data = a.data ++ b.data := by
  cases a; cases b; rfl

/-! ## Data model

`MediaInfo` mirrors the `@dataclass MediaInfo` of the source (the
spec's `MediaDescription`); an audio stream entry mirrors the dict
`{"index": ..., "channels": ..., "channel_layout": ...}` built by
`probe_media`.  Absent dict values are `none`. -/

/-- One audio stream as recorded by `probe_media` (`index`, `channels`,
`channel_layout`; any field may be missing). -/
structure AudioStream where
  index : Option Int
  channels : Option Nat
  channel_layout : Option String
deriving DecidableEq

/-- The `MediaInfo` dataclass of `cli.py`. -/
structure MediaInfo where
  has_video : Bool
  all_video_av1 : Bool
  audio_codecs : List String
  audio_streams : List AudioStream
  subtitle_streams : Nat
  attachments : Nat
  colorspace : Option String
  color_primaries : Option String
  color_trc : Option String
  pix_fmt : Option String
deriving DecidableEq

/-! ## ComplianceEvaluator: `already_compliant` -/

/-- The audio clause of `already_compliant`:
`all(ac == "opus" for ac in info.audio_codecs if ac)` — the generator
filters out falsy (empty) codec names before comparing with `"opus"`. -/
def allNonEmptyOpus (codecs : List String) : Bool :=
  (codecs.filter fun ac => !(ac == "")).all fun ac => ac == "opus"

/-- `already_compliant(info)` of `cli.py` (the argument is optional:
`probe_media` may have returned `None`). -/
def already_compliant : Option MediaInfo → Bool
  | none => false
  | some info =>
    if !info.has_video then false
    else if !info.all_video_av1 then false
    else if allNonEmptyOpus info.audio_codecs then true
    else false

/-! ## EncodePlanBuilder: `build_ffmpeg_cmd` -/

/-- HDR heuristic of `build_ffmpeg_cmd`: inside the guard
`if info.color_primaries or info.color_trc or info.colorspace:`, set
`hdr` when `(info.color_primaries or "").startswith("bt2020")` or
`(info.colorspace or "").startswith("bt2020")`.  (With default `""`,
Python `x or ""` agrees with `Option.getD x ""`.) -/
def hdrFlag (info : MediaInfo) : Bool :=
  if pyTruthyS info.color_primaries || pyTruthyS info.color_trc
      || pyTruthyS info.colorspace then
    beginsWith "bt2020" (info.color_primaries.getD "")
      || beginsWith "bt2020" (info.colorspace.getD "")
  else false

/-- The pixel-format choice: `v_pix = info.pix_fmt or "yuv420p"`, replaced
by `"p010le"` when the HDR heuristic fires. -/
def vPix (info : MediaInfo) : String :=
  if hdrFlag info then "p010le" else pyOrStr info.pix_fmt "yuv420p"

/-- Preset block: `if not any(a == "-preset" for a in extra_video_args):
v_args += ["-preset", "p7"]`. -/
def presetArgs (extraVideoArgs : List String) : List String :=
  if extraVideoArgs.any fun a => a == "-preset" then []
  else ["-preset", "p7"]

/-- Rate-control block of `build_ffmpeg_cmd`: bitrate-bounded VBR when
`target_bitrate` is truthy, else constant-quality VBR with
`eff_cq = cq if cq is not None else 30`. -/
def rateArgs (cq : Option Int) (targetBitrate : Option String) : List String :=
  if pyTruthyS targetBitrate then
    ["-rc", "vbr", "-b:v", targetBitrate.getD "", "-maxrate",
     targetBitrate.getD "", "-b_ref_mode", "middle"]
  else
    ["-cq", toString (cq.getD 30), "-rc", "vbr", "-b_ref_mode", "middle"]

/-- Adaptive-quantization block, gated on option names discovered from the
encoder help output (the memoized `get_av1_nvenc_options` result, passed
here explicitly as `nvencOpts`). -/
def aqArgs (nvencOpts : List String) : List String :=
  (if nvencOpts.contains "spatial_aq" then ["-spatial_aq", "1"] else []) ++
  (if nvencOpts.contains "temporal_aq" then ["-temporal_aq", "1"] else [])

/-- Color metadata passthrough: each of the three fields is forwarded when
truthy (`if info.color_primaries: ...` etc.). -/
def colorArgs (info : MediaInfo) : List String :=
  (if pyTruthyS info.color_primaries then
    ["-color_primaries", info.color_primaries.getD ""] else []) ++
  (if pyTruthyS info.color_trc then
    ["-color_trc", info.color_trc.getD ""] else []) ++
  (if pyTruthyS info.colorspace then
    ["-colorspace", info.colorspace.getD ""] else [])

/-- The `v_args` vector of `build_ffmpeg_cmd` in source order: codec,
preset, rate control, AQ, `-bf 3`, pixel format, color passthrough, then
the user's extra video args appended last. -/
def videoArgs (info : MediaInfo) (cq : Option Int) (targetBitrate : Option String)
    (extraVideoArgs : List String) (nvencOpts : List String) : List String :=
  ["-c:v", "av1_nvenc"] ++ presetArgs extraVideoArgs
    ++ rateArgs cq targetBitrate ++ aqArgs nvencOpts
    ++ ["-bf", "3", "-pix_fmt", vPix info] ++ colorArgs info
    ++ extraVideoArgs

/-- The constant channel-remap filter used for 5.1(side) sources. -/
def channelmapFilter : String := "channelmap=map=FL-FL|FR-FR|FC-FC|LFE-LFE|SL-BL|SR-BR"

/-- Per-audio-stream Opus fix of `build_ffmpeg_cmd` (the loop body over
`enumerate(info.audio_streams or [])`): returns the per-stream argument
list and whether a non-fatal warning is printed.  `ch` is
`int(a.get("channels") or 0)` and `layout` is
`(a.get("channel_layout") or "").lower()`. -/
def audioFixOne (aIdx : Nat) (a : AudioStream) : List String × Bool :=
  let ch := a.channels.getD 0
  let layout := lowerStr (pyOrStr a.channel_layout "")
  if ch ≤ 2 then
    (["-mapping_family:a:" ++ toString aIdx, "0"], false)
  else if ch = 6 && layout == "5.1(side)" then
    (["-mapping_family:a:" ++ toString aIdx, "1",
      "-filter:a:" ++ toString aIdx, channelmapFilter], false)
  else if ch = 6 && (layout == "5.1" || layout == "5.1(back)") then
    (["-mapping_family:a:" ++ toString aIdx, "1"], false)
  else if ch = 8 && (layout == "7.1" || layout == "7.1(wide)"
      || layout == "7.1(wide-side)" || layout == "7.1(rear)") then
    (["-mapping_family:a:" ++ toString aIdx, "1"], false)
  else if ch = 4 && (layout == "quad" || layout == "4.0") then
    (["-mapping_family:a:" ++ toString aIdx, "1"], false)
  else if ch = 3 || ch = 4 || ch = 5 || ch = 7 then
    (["-mapping_family:a:" ++ toString aIdx, "1"], true)
  else
    (["-ac:a:" ++ toString aIdx, "2", "-mapping_family:a:" ++ toString aIdx, "0"], true)

/-- The per-stream loop, carrying the running `enumerate` ordinal. -/
def audioFixAux (k : Nat) : List AudioStream → List String
  | [] => []
  | a :: rest => (audioFixOne k a).1 ++ audioFixAux (k + 1) rest

/-- All per-audio-stream fix arguments, in stream-list order. -/
def audioFixArgs (streams : List AudioStream) : List String :=
  audioFixAux 0 streams

/-- Ordinals of the audio streams for which the loop prints a warning. -/
def audioWarnAux (k : Nat) : List AudioStream → List Nat
  | [] => []
  | a :: rest =>
    (if (audioFixOne k a).2 then [k] else []) ++ audioWarnAux (k + 1) rest

/-- Warned stream ordinals for a whole stream list. -/
def audioWarnings (streams : List AudioStream) : List Nat :=
  audioWarnAux 0 streams

/-- `build_ffmpeg_cmd` of `cli.py`, assembled in source order.  `srcStr`
and `dstStr` are `str(src)` / `str(dst)`; `nvencOpts` is the capability
set returned by `get_av1_nvenc_options(ffmpeg_bin)`. -/
def buildFfmpegCmd (srcStr dstStr : String) (info : MediaInfo) (cq : Option Int)
    (targetBitrate : Option String) (audioBitrate : String)
    (extraVideoArgs : List String) (ffmpegBin : String)
    (nvencOpts : List String) : List String :=
  [ffmpegBin, "-hide_banner", "-y", "-nostdin", "-i", srcStr]
    ++ ["-map_metadata", "0", "-map_chapters", "0"]
    ++ ["-map", "0:v?", "-map", "0:a?", "-map", "0:s?", "-map", "0:t?"]
    ++ videoArgs info cq targetBitrate extraVideoArgs nvencOpts
    ++ ["-c:a", "libopus", "-b:a", audioBitrate, "-vbr", "on",
        "-application", "audio"]
    ++ ["-c:s", "copy", "-c:t", "copy"]
    ++ audioFixArgs info.audio_streams
    ++ [dstStr]

/-! ## Output container choice (`choose_ext` inside `process_file`) -/

/-- A filesystem path reduced to the parts `choose_ext` and
`Path.with_suffix` inspect: stem and (final) suffix, the suffix
including its leading dot. -/
structure PPath where
  stem : String
  sfx : String
deriving DecidableEq

/-- Python `p.with_suffix(e)`. -/
def PPath.withSuffix (p : PPath) (e : String) : PPath := ⟨p.stem, e⟩

/-- `choose_ext` of `process_file`:
`src_ext if src_ext in {".mkv", ".webm"} else ".mkv"` where
`src_ext = p.suffix.lower()`. -/
def chooseExt (p : PPath) : String :=
  let srcExt := lowerStr p.sfx
  if srcExt == ".mkv" || srcExt == ".webm" then srcExt else ".mkv"

/-! ## Sub-list search used to state argument-vector properties -/

/-- `segStarts pat l`: `pat` is a prefix of `l`. -/
def segStarts : List String → List String → Bool
  | [], _ => true
  | _ :: _, [] => false
  | p :: ps, x :: xs => p == x && segStarts ps xs

/-- `hasSeg pat l`: `pat` occurs as a consecutive run inside `l`. -/
def hasSeg (pat : List String) : List String → Bool
  | [] => segStarts pat []
  | x :: xs => segStarts pat (x :: xs) || hasSeg pat xs

/-! ## TransactionalReplacer: a small-step model of `replace_file`

Files are abstract contents; the state tracks the four paths the function
touches: the original path `src`, the backup path `src.suffix + ".bak"`,
the temporary output, and (when the container extension changed) the
distinct destination path.  When the destination equals the original path
(`dest == src`, flag `al = true`) the destination slot IS the `atSrc`
slot.  Every fallible OS call (`unlink`, `Path.replace`) consumes one
boolean from an oracle: `true` means the call succeeds, `false` means it
raises; an exhausted oracle means success.  Each stage returns the list
of filesystem states observable after it starts, plus whether
`replace_file` terminates by raising. -/

/-- Abstract file contents: the original file, the freshly encoded file,
or some unrelated pre-existing file. -/
inductive FileC where
  | corig
  | cenc
  | cother
deriving DecidableEq

/-- Filesystem state over the four paths `replace_file` touches.  `atDst`
is the distinct destination path; it is aliased to `atSrc` when
`dest == src`. -/
structure RFS where
  atSrc : Option FileC
  atBak : Option FileC
  atTmp : Option FileC
  atDst : Option FileC
deriving DecidableEq

/-- Content at the destination path (`atSrc` when aliased). -/
def dstGet (al : Bool) (fs : RFS) : Option FileC :=
  if al then fs.atSrc else fs.atDst

/-- Write the destination path (`atSrc` when aliased). -/
def dstSet (al : Bool) (v : Option FileC) (fs : RFS) : RFS :=
  if al then { fs with atSrc := v } else { fs with atDst := v }

/-- Pop the next success/failure bit from the oracle (empty = success). -/
def nextO : List Bool → Bool × List Bool
  | [] => (true, [])
  | b :: t => (b, t)

/-- The `except` handler of `replace_file`:
`if (not src.exists()) and backup.exists(): backup.replace(src)`, then the
exception is re-raised (`finally: raise`).  A failing restore changes
nothing. -/
def rollbackStep (o : List Bool) (fs : RFS) : List RFS :=
  if fs.atSrc = none ∧ fs.atBak ≠ none then
    match nextO o with
    | (true, _) => [{ fs with atSrc := fs.atBak, atBak := none }]
    | (false, _) => []
  else []

/-- Success epilogue: `if backup.exists(): backup.unlink()`; on failure
the handler runs and the exception propagates. -/
def cleanupStage (o : List Bool) (fs : RFS) : List RFS × Bool :=
  if fs.atBak ≠ none then
    match nextO o with
    | (true, _) => ([{ fs with atBak := none }], false)
    | (false, o2) => (rollbackStep o2 fs, true)
  else ([], false)

/-- `tmp_out.replace(dest)`: promote the temporary file; renaming a
missing temporary raises. -/
def promoteStage (al : Bool) (o : List Bool) (fs : RFS) : List RFS × Bool :=
  match fs.atTmp with
  | some c =>
    match nextO o with
    | (true, o2) =>
      let fs2 := dstSet al (some c) { fs with atTmp := none }
      let r := cleanupStage o2 fs2
      (fs2 :: r.1, r.2)
    | (false, o2) => (rollbackStep o2 fs, true)
  | none => (rollbackStep o fs, true)

/-- `if dest.exists(): dest.unlink()` inside the `try` block. -/
def unlinkDestStage (al : Bool) (o : List Bool) (fs : RFS) : List RFS × Bool :=
  if dstGet al fs ≠ none then
    match nextO o with
    | (true, o2) =>
      let fs2 := dstSet al none fs
      let r := promoteStage al o2 fs2
      (fs2 :: r.1, r.2)
    | (false, o2) => (rollbackStep o2 fs, true)
  else promoteStage al o fs

/-- `if src.exists(): src.replace(backup)` — still outside the `try`
block, so a failure here propagates with no rollback. -/
def backupStage (al : Bool) (o : List Bool) (fs : RFS) : List RFS × Bool :=
  if fs.atSrc ≠ none then
    match nextO o with
    | (true, o2) =>
      let fs2 : RFS := { fs with atSrc := none, atBak := fs.atSrc }
      let r := unlinkDestStage al o2 fs2
      (fs2 :: r.1, r.2)
    | (false, _) => ([], true)
  else unlinkDestStage al o fs

/-- `if backup.exists(): backup.unlink()` — removal of a stale backup,
before anything else; also outside the `try` block. -/
def staleBakStage (al : Bool) (o : List Bool) (fs : RFS) : List RFS × Bool :=
  if fs.atBak ≠ none then
    match nextO o with
    | (true, o2) =>
      let fs2 : RFS := { fs with atBak := none }
      let r := backupStage al o2 fs2
      (fs2 :: r.1, r.2)
    | (false, _) => ([], true)
  else backupStage al o fs

/-- One full run of `replace_file` from state `fs` under oracle `o`. -/
def replaceRun (al : Bool) (o : List Bool) (fs : RFS) : List RFS × Bool :=
  staleBakStage al o fs

/-- All observable filesystem states of a run, the initial one included. -/
def replaceStates (al : Bool) (o : List Bool) (fs : RFS) : List RFS :=
  fs :: (replaceRun al o fs).1

/-- Whether the run terminates by raising. -/
def replaceRaised (al : Bool) (o : List Bool) (fs : RFS) : Bool :=
  (replaceRun al o fs).2

/-- The final filesystem state of a run. -/
def replaceFinal (al : Bool) (o : List Bool) (fs : RFS) : RFS :=
  (replaceStates al o fs).getLastD fs

/-- Canonical entry state of a replacement: the original at its path, no
stale backup, the encoded output at the temporary path, and (in the
non-aliased case) content `d0` at the distinct destination path. -/
def replaceInit (d0 : Option FileC) : RFS :=
  { atSrc := some .corig, atBak := none, atTmp := some .cenc, atDst := d0 }

/-! Predicates used by the replacement claims. -/

/-- The original file is at the original path. -/
def origAt (fs : RFS) : Prop := fs.atSrc = some .corig

/-- Some file is at the backup path. -/
def bakAt (fs : RFS) : Prop := fs.atBak ≠ none

/-- Some file is at the destination path. -/
def dstAt (al : Bool) (fs : RFS) : Prop := dstGet al fs ≠ none

/-- The three-state disjunction asserted by the specification: exactly one
of (the original at its path) / (backup present and destination absent) /
(destination present and backup and original absent) holds. -/
def specExactlyOne (al : Bool) (fs : RFS) : Prop :=
  (origAt fs ∧ ¬(bakAt fs ∧ ¬dstAt al fs)
      ∧ ¬(dstAt al fs ∧ ¬bakAt fs ∧ ¬origAt fs))
  ∨ ((bakAt fs ∧ ¬dstAt al fs) ∧ ¬origAt fs
      ∧ ¬(dstAt al fs ∧ ¬bakAt fs ∧ ¬origAt fs))
  ∨ ((dstAt al fs ∧ ¬bakAt fs ∧ ¬origAt fs) ∧ ¬origAt fs
      ∧ ¬(bakAt fs ∧ ¬dstAt al fs))

instance (al : Bool) (fs : RFS) : Decidable (specExactlyOne al fs) := by
  unfold specExactlyOne origAt bakAt dstAt
  infer_instance

/-- The invariant the code actually maintains: the original (at its path)
and a backup never coexist, and the original, the backup and the
destination are never simultaneously all absent. -/
def replaceInv (al : Bool) (fs : RFS) : Prop :=
  ¬(origAt fs ∧ bakAt fs) ∧ (origAt fs ∨ bakAt fs ∨ dstAt al fs)

instance (al : Bool) (fs : RFS) : Decidable (replaceInv al fs) := by
  unfold replaceInv origAt bakAt dstAt
  infer_instance

/-! ## The no-replace branch of `process_file`

`final_out = path.with_suffix(chosen_ext)`; then inside a `try`:
`if final_out.exists(): final_out.unlink()` and
`shutil.move(str(tmp_out), str(final_out))`; the `except` branch
best-effort-unlinks the temporary file.  The state maps every abstract
path (a `Nat`) to optional contents; `nrTmpP` is the temporary path and
`nrFinalP` the sibling output path (which is the original path itself
when the source extension already equals the chosen one). -/

/-- Filesystem for the no-replace model: abstract paths to contents. -/
def NFS := Nat → Option FileC

/-- The temporary output path. -/
def nrTmpP : Nat := 0

/-- The sibling output path `path.with_suffix(chosen_ext)`. -/
def nrFinalP : Nat := 1

/-- Best-effort temp cleanup of the `except` branch:
`if tmp_out.exists(): try: tmp_out.unlink() except: pass`. -/
def nrCleanup (o : List Bool) (fs : NFS) : List NFS :=
  if (fs nrTmpP).isSome then
    match nextO o with
    | (true, _) => [fun p => if p = nrTmpP then none else fs p]
    | (false, _) => []
  else []

/-- `shutil.move(str(tmp_out), str(final_out))`; moving a missing source
raises. -/
def nrMoveStage (o : List Bool) (fs : NFS) : List NFS × Bool :=
  match fs nrTmpP with
  | some c =>
    match nextO o with
    | (true, _) =>
      ([fun p => if p = nrTmpP then none else if p = nrFinalP then some c else fs p],
       false)
    | (false, o2) => (nrCleanup o2 fs, true)
  | none => (nrCleanup o fs, true)

/-- `if final_out.exists(): final_out.unlink()` then the move. -/
def nrRun (o : List Bool) (fs : NFS) : List NFS × Bool :=
  if (fs nrFinalP).isSome then
    match nextO o with
    | (true, o2) =>
      let fs2 : NFS := fun p => if p = nrFinalP then none else fs p
      let r := nrMoveStage o2 fs2
      (fs2 :: r.1, r.2)
    | (false, o2) => (nrCleanup o2 fs, true)
  else nrMoveStage o fs

/-- All observable states of the no-replace branch, initial one included. -/
def nrStates (o : List Bool) (fs : NFS) : List NFS :=
  fs :: (nrRun o fs).1

/-! ## Claim-side (specification-worded) definitions for refinement claims -/

/-- The audio channel-mapping table exactly as the specification words it
(checked in order, first match wins), applied to one stream's ordinal,
channel count and (lowercased) layout label. -/
def specAudioRow (aIdx : Nat) (ch : Nat) (layout : String) : List String × Bool :=
  if ch ≤ 2 then
    (["-mapping_family:a:" ++ toString aIdx, "0"], false)
  else if ch = 6 ∧ layout = "5.1(side)" then
    (["-mapping_family:a:" ++ toString aIdx, "1",
      "-filter:a:" ++ toString aIdx, channelmapFilter], false)
  else if ch = 6 ∧ (layout = "5.1" ∨ layout = "5.1(back)") then
    (["-mapping_family:a:" ++ toString aIdx, "1"], false)
  else if ch = 8 ∧ (layout = "7.1" ∨ layout = "7.1(wide)"
      ∨ layout = "7.1(wide-side)" ∨ layout = "7.1(rear)") then
    (["-mapping_family:a:" ++ toString aIdx, "1"], false)
  else if ch = 4 ∧ (layout = "quad" ∨ layout = "4.0") then
    (["-mapping_family:a:" ++ toString aIdx, "1"], false)
  else if ch = 3 ∨ ch = 4 ∨ ch = 5 ∨ ch = 7 then
    (["-mapping_family:a:" ++ toString aIdx, "1"], true)
  else
    (["-ac:a:" ++ toString aIdx, "2",
      "-mapping_family:a:" ++ toString aIdx, "0"], true)

/-- Spec-side resolution: each audio stream independently, by its ordinal
in the stream list, through the table. -/
def specAudioArgsAux (k : Nat) : List AudioStream → List String
  | [] => []
  | a :: rest =>
    (specAudioRow k (a.channels.getD 0) (lowerStr (pyOrStr a.channel_layout ""))).1
      ++ specAudioArgsAux (k + 1) rest

/-- Spec-side per-stream argument lists for a whole file. -/
def specAudioArgs (streams : List AudioStream) : List String :=
  specAudioArgsAux 0 streams

/-- Spec-side warned ordinals. -/
def specAudioWarnAux (k : Nat) : List AudioStream → List Nat
  | [] => []
  | a :: rest =>
    (if (specAudioRow k (a.channels.getD 0) (lowerStr (pyOrStr a.channel_layout ""))).2
      then [k] else []) ++ specAudioWarnAux (k + 1) rest

/-- Spec-side warned ordinals for a whole file. -/
def specAudioWarnings (streams : List AudioStream) : List Nat :=
  specAudioWarnAux 0 streams

/-! ## Helper lemmas -/

theorem allNonEmptyOpus_iff (l : List String) :
    allNonEmptyOpus l = true ↔ ∀ c ∈ l, c ≠ "" → c = "opus" := by
  simp only [allNonEmptyOpus, List.all_eq_true, List.mem_filter, Bool.not_eq_eq_eq_not,
    Bool.not_true, beq_iff_eq, beq_eq_false_iff_ne, ne_eq, and_imp]

theorem pyTruthyS_false_getD (x : Option String) (h : pyTruthyS x = false) :
    x.getD "" = "" := by
  cases x with
  | none => rfl
  | some s => simpa [pyTruthyS] using h

theorem beginsWith_bt2020_empty : beginsWith "bt2020" "" = false := by decide

theorem audioFixOne_eq_specRow (k : Nat) (a : AudioStream) :
    audioFixOne k a
      = specAudioRow k (a.channels.getD 0) (lowerStr (pyOrStr a.channel_layout "")) := by
  unfold audioFixOne specAudioRow
  simp only [Bool.and_eq_true, Bool.or_eq_true, beq_iff_eq, decide_eq_true_eq, or_assoc]

theorem audioFixAux_eq_specAux (streams : List AudioStream) :
    ∀ k, audioFixAux k streams = specAudioArgsAux k streams := by
  induction streams with
  | nil => intro k; rfl
  | cons a rest ih =>
    intro k
    simp [audioFixAux, specAudioArgsAux, audioFixOne_eq_specRow, ih]

theorem audioWarnAux_eq_specAux (streams : List AudioStream) :
    ∀ k, audioWarnAux k streams = specAudioWarnAux k streams := by
  induction streams with
  | nil => intro k; rfl
  | cons a rest ih =>
    intro k
    simp [audioWarnAux, specAudioWarnAux, audioFixOne_eq_specRow, ih]

/-! ## C1 -/

/-- C1: the per-stream audio arguments of `build_ffmpeg_cmd` resolve every
audio stream independently by its ordinal through the specification's
first-match table on (channel count, lowercased layout label) — mapping
family 0 for at most 2 channels; family 1 plus the side-to-back
channelmap filter for 6-channel 5.1(side); family 1 for 6-channel
5.1/5.1(back), 8-channel recognized 7.1 variants and 4-channel quad/4.0;
family 1 plus a warning for remaining 3/4/5/7-channel layouts; and a
forced stereo downmix with family 0 plus a warning otherwise.  The
emitted arguments carry each stream's list ordinal, so a stereo plus a
5.1(side) stream in one file receive two different, correctly indexed
argument sets. -/
theorem C1_audio_mapping_table :
    (∀ streams : List AudioStream,
        audioFixArgs streams = specAudioArgs streams
          ∧ audioWarnings streams = specAudioWarnings streams)
    ∧ audioFixArgs
        [{ index := some 0, channels := some 2, channel_layout := some "stereo" },
         { index := some 1, channels := some 6, channel_layout := some "5.1(side)" }]
      = ["-mapping_family:a:0", "0",
         "-mapping_family:a:1", "1", "-filter:a:1", channelmapFilter] := by
  refine ⟨fun streams => ⟨audioFixAux_eq_specAux streams 0, audioWarnAux_eq_specAux streams 0⟩, ?_⟩
  decide

/-! ## Concrete fixtures used by closed witness and counterexample theorems -/

/-- A probed description with video all-AV1 and audio codecs
`["opus", ""]`. -/
def mediaFixtureA : MediaInfo :=
  { has_video := true, all_video_av1 := true, audio_codecs := ["opus", ""],
    audio_streams := [], subtitle_streams := 0, attachments := 0,
    colorspace := none, color_primaries := none, color_trc := none,
    pix_fmt := none }

/-- A probed description with video all-AV1 and a single `"opus"` audio
stream codec. -/
def mediaFixtureB : MediaInfo :=
  { has_video := true, all_video_av1 := true, audio_codecs := ["opus"],
    audio_streams := [], subtitle_streams := 0, attachments := 0,
    colorspace := none, color_primaries := none, color_trc := none,
    pix_fmt := none }

/-! ## C2 -/

/-- C2: `already_compliant` returns true iff the file has video, every
video stream is already AV1, and every non-empty audio codec name is
"opus"; zero audio streams trivially satisfy the audio condition, and no
video means never compliant. -/
theorem C2_compliance_iff (info : MediaInfo) :
    (already_compliant (some info) = true ↔
      (info.has_video = true ∧ info.all_video_av1 = true ∧
        ∀ c ∈ info.audio_codecs, c ≠ "" → c = "opus"))
    ∧ (info.audio_codecs = [] → info.has_video = true →
        info.all_video_av1 = true → already_compliant (some info) = true)
    ∧ (info.has_video = false → already_compliant (some info) = false) := by
  have hb : already_compliant (some info) = true ↔
      (info.has_video = true ∧ info.all_video_av1 = true ∧
        ∀ c ∈ info.audio_codecs, c ≠ "" → c = "opus") := by
    rw [← allNonEmptyOpus_iff]
    unfold already_compliant
    cases hv : info.has_video <;> cases ha : info.all_video_av1 <;>
      cases ho : allNonEmptyOpus info.audio_codecs <;> simp [hv, ha, ho]
  refine ⟨hb, fun h0 hv ha => ?_, fun hv => ?_⟩
  · exact hb.mpr ⟨hv, ha, by simp [h0]⟩
  · cases hc : already_compliant (some info) with
    | false => rfl
    | true => rw [(hb.mp hc).1] at hv; cases hv

/-- Closed instance of `C2_compliance_iff` at `mediaFixtureA`. -/
theorem C2_compliance_iff_witness :
    (already_compliant (some mediaFixtureA) = true ↔
      (mediaFixtureA.has_video = true ∧ mediaFixtureA.all_video_av1 = true ∧
        ∀ c ∈ mediaFixtureA.audio_codecs, c ≠ "" → c = "opus"))
    ∧ (mediaFixtureA.audio_codecs = [] → mediaFixtureA.has_video = true →
        mediaFixtureA.all_video_av1 = true →
        already_compliant (some mediaFixtureA) = true)
    ∧ (mediaFixtureA.has_video = false →
        already_compliant (some mediaFixtureA) = false) :=
  C2_compliance_iff mediaFixtureA

/-! ## C6 -/

theorem hdrFlag_iff (info : MediaInfo) :
    hdrFlag info
      = (beginsWith "bt2020" (info.color_primaries.getD "")
          || beginsWith "bt2020" (info.colorspace.getD "")) := by
  unfold hdrFlag
  split
  · rfl
  · next h =>
    simp only [Bool.or_eq_true, not_or, Bool.not_eq_true] at h
    rw [pyTruthyS_false_getD _ h.1.1, pyTruthyS_false_getD _ h.2,
        beginsWith_bt2020_empty]
    rfl

/-- C6: the plan's pixel-format value is `"p010le"` exactly when the
color primaries or color space string begins with `"bt2020"`; otherwise
it is the reported pixel format when one is reported (non-empty), and
`"yuv420p"` when none is (Python truthiness: a missing and an empty
report coincide). -/
theorem C6_pixel_format (info : MediaInfo) :
    vPix info
      = (if beginsWith "bt2020" (info.color_primaries.getD "")
            || beginsWith "bt2020" (info.colorspace.getD "") then "p010le"
         else match info.pix_fmt with
           | some p => if p = "" then "yuv420p" else p
           | none => "yuv420p") := by
  unfold vPix
  rw [hdrFlag_iff]
  split
  · rfl
  · cases hp : info.pix_fmt with
    | none => rfl
    | some p =>
      by_cases he : p = "" <;> simp [pyOrStr, pyTruthyS, hp, he]

/-! ## C7 -/

/-- C7 counterexample: for a source whose extension is `.MKV` (a
case-insensitive match for `.mkv`), `choose_ext` returns the lowercased
`".mkv"`, not the source's own extension `".MKV"` as the claim states. -/
theorem C7_counterexample :
    chooseExt { stem := "Movie", sfx := ".MKV" } = ".mkv"
      ∧ lowerStr ".MKV" = ".mkv"
      ∧ (".mkv" : String) ≠ ".MKV" := by
  refine ⟨by decide, by decide, by decide⟩

/-- C7 amended: the resolved container extension is the LOWERCASED source
extension when that lowercased extension is `.mkv` or `.webm`, and
`".mkv"` in every other case; it depends only on the source's extension,
not on any other property of the path or file. -/
theorem C7_container_policy (p : PPath) :
    (chooseExt p
      = (if lowerStr p.sfx = ".mkv" ∨ lowerStr p.sfx = ".webm"
          then lowerStr p.sfx else ".mkv"))
    ∧ (∀ q : PPath, q.sfx = p.sfx → chooseExt q = chooseExt p) := by
  constructor
  · unfold chooseExt
    by_cases h1 : lowerStr p.sfx = ".mkv" <;>
      by_cases h2 : lowerStr p.sfx = ".webm" <;> simp [h1, h2]
  · intro q hq
    unfold chooseExt
    rw [hq]

/-- Closed instance of `C7_container_policy` at the path `clip.WEBM`. -/
theorem C7_container_policy_witness :
    (chooseExt { stem := "clip", sfx := ".WEBM" }
      = (if lowerStr ".WEBM" = ".mkv" ∨ lowerStr ".WEBM" = ".webm"
          then lowerStr ".WEBM" else ".mkv"))
    ∧ (∀ q : PPath, q.sfx = ".WEBM" →
        chooseExt q = chooseExt { stem := "clip", sfx := ".WEBM" }) :=
  C7_container_policy { stem := "clip", sfx := ".WEBM" }

/-! ## C8 -/

/-- Replace the codec name of the audio stream at list ordinal `i`. -/
def setAudioCodec (info : MediaInfo) (i : Nat) (v : String) : MediaInfo :=
  { info with audio_codecs := info.audio_codecs.set i v }

/-- C8 counterexample: a compliant description stays compliant when a
single audio codec name is replaced by the empty string — a non-target
value — because `already_compliant` ignores empty codec names. -/
theorem C8_counterexample :
    already_compliant (some mediaFixtureB) = true
    ∧ ("" : String) ≠ "opus"
    ∧ already_compliant (some (setAudioCodec mediaFixtureB 0 "")) = true := by
  refine ⟨by decide, by decide, by decide⟩

/-- C8 amended: replacing any single audio stream's codec name in a
compliant description with any non-empty non-"opus" value makes
`already_compliant` false (the empty string is excluded: empty codec
names are ignored by the audio clause). -/
theorem C8_single_change_breaks_compliance (info : MediaInfo) (i : Nat) (v : String)
    (hi : i < info.audio_codecs.length) (hv : v ≠ "opus") (hne : v ≠ "")
    (hc : already_compliant (some info) = true) :
    already_compliant (some (setAudioCodec info i v)) = false := by
  have hlen : i < (info.audio_codecs.set i v).length := by
    simpa using hi
  have hmem : v ∈ info.audio_codecs.set i v := List.mem_set info.audio_codecs i hi v
  have hbad : allNonEmptyOpus (info.audio_codecs.set i v) = false := by
    cases hall : allNonEmptyOpus (info.audio_codecs.set i v) with
    | false => rfl
    | true => exact absurd ((allNonEmptyOpus_iff _).mp hall v hmem hne) hv
  have h2 := (C2_compliance_iff info).1.mp hc
  unfold already_compliant setAudioCodec
  simp [h2.1, h2.2.1, hbad]

/-- Closed instance of `C8_single_change_breaks_compliance`: replacing the
only codec of a compliant single-stream file with `"aac"`. -/
theorem C8_single_change_witness :
    already_compliant (some (setAudioCodec mediaFixtureB 0 "aac")) = false :=
  C8_single_change_breaks_compliance mediaFixtureB 0 "aac" (by decide) (by decide)
    (by decide) (by decide)

/-! ## C3 -/

/-- The observable state right after the destination rename succeeds and
before the backup is deleted (non-aliased run, all operations succeed). -/
def postPromoteState : RFS :=
  { atSrc := none, atBak := some FileC.corig, atTmp := none,
    atDst := some FileC.cenc }

/-- C3 counterexample: in a successful non-aliased run, the state between
the destination rename and the backup deletion has the backup AND the
destination present (original absent) — none of the claim's three
states, so the claimed three-way exclusivity fails at an observable
point. -/
theorem C3_counterexample :
    postPromoteState ∈ replaceStates false [true, true] (replaceInit none)
      ∧ ¬ specExactlyOne false postPromoteState := by
  refine ⟨by decide, by decide⟩

/-- Auxiliary strengthening: the backup path only ever holds the original
file (or nothing). -/
def bakOrigOnly (fs : RFS) : Prop :=
  fs.atBak = none ∨ fs.atBak = some FileC.corig

theorem rollback_inv (al : Bool) (o : List Bool) (fs g : RFS)
    (hb : bakOrigOnly fs) (hg : g ∈ rollbackStep o fs) : replaceInv al g := by
  unfold rollbackStep at hg
  split at hg
  · next hcond =>
    rcases hno : nextO o with ⟨b, o2⟩
    rw [hno] at hg
    cases b
    · simp at hg
    · simp only [List.mem_singleton] at hg
      subst hg
      rcases hb with hb | hb
      · exact absurd hb hcond.2
      · simp [replaceInv, origAt, bakAt, dstAt, hb]
  · simp at hg

theorem cleanup_inv (al : Bool) (o : List Bool) (fs g : RFS)
    (hb : bakOrigOnly fs) (hd : dstAt al fs)
    (hg : g ∈ (cleanupStage o fs).1) : replaceInv al g := by
  unfold cleanupStage at hg
  split at hg
  · rcases hno : nextO o with ⟨b, o2⟩
    rw [hno] at hg
    cases b
    · exact rollback_inv al o2 fs g hb (by simpa using hg)
    · simp only [List.mem_singleton] at hg
      subst hg
      refine ⟨by simp [origAt, bakAt], Or.inr (Or.inr ?_)⟩
      simpa [dstAt, dstGet] using hd
  · simp at hg

theorem promote_inv (al : Bool) (o : List Bool) (fs g : RFS)
    (hinv : replaceInv al fs) (hb : bakOrigOnly fs)
    (htmp : fs.atTmp = none ∨ fs.atTmp = some FileC.cenc)
    (hg : g ∈ (promoteStage al o fs).1) : replaceInv al g := by
  unfold promoteStage at hg
  split at hg
  · next c hceq =>
    rcases hno : nextO o with ⟨b, o2⟩
    rw [hno] at hg
    cases b
    · exact rollback_inv al o2 fs g hb (by simpa using hg)
    · have hcenc : c = FileC.cenc := by
        rcases htmp with h | h
        · rw [hceq] at h; cases h
        · rw [hceq] at h; exact Option.some.inj h
      subst hcenc
      rcases List.mem_cons.mp (by simpa using hg) with hg2 | hg2
      · subst hg2
        refine ⟨?_, Or.inr (Or.inr ?_)⟩
        · cases al with
          | true =>
            rintro ⟨ho, -⟩
            simp [origAt, dstSet] at ho
          | false =>
            rintro ⟨ho, hbk⟩
            exact hinv.1 ⟨by simpa [origAt, dstSet] using ho,
              by simpa [bakAt, dstSet] using hbk⟩
        · cases al <;> simp [dstAt, dstGet, dstSet]
      · refine cleanup_inv al _ _ g ?_ ?_ hg2
        · rcases hb with h | h <;> cases al <;>
            simp_all [bakOrigOnly, dstSet]
        · cases al <;> simp [dstAt, dstGet, dstSet]
  · exact rollback_inv al o fs g hb (by simpa using hg)

theorem unlinkDest_inv (al : Bool) (o : List Bool) (fs g : RFS)
    (hinv : replaceInv al fs) (hb : bakOrigOnly fs) (hbak : bakAt fs)
    (htmp : fs.atTmp = none ∨ fs.atTmp = some FileC.cenc)
    (hg : g ∈ (unlinkDestStage al o fs).1) : replaceInv al g := by
  unfold unlinkDestStage at hg
  split at hg
  · rcases hno : nextO o with ⟨b, o2⟩
    rw [hno] at hg
    cases b
    · exact rollback_inv al o2 fs g hb (by simpa using hg)
    · have h2 : replaceInv al (dstSet al none fs) := by
        refine ⟨?_, Or.inr (Or.inl ?_)⟩
        · cases al with
          | true =>
            rintro ⟨ho, -⟩
            simp [origAt, dstSet] at ho
          | false =>
            rintro ⟨ho, hbk⟩
            exact hinv.1 ⟨by simpa [origAt, dstSet] using ho,
              by simpa [bakAt, dstSet] using hbk⟩
        · cases al <;> simpa [bakAt, dstSet] using hbak
      rcases List.mem_cons.mp (by simpa using hg) with hg2 | hg2
      · subst hg2; exact h2
      · refine promote_inv al _ _ g h2 ?_ ?_ hg2
        · rcases hb with h | h <;> cases al <;> simp_all [bakOrigOnly, dstSet]
        · rcases htmp with h | h <;> cases al <;> simp_all [dstSet]
  · exact promote_inv al o fs g hinv hb htmp hg

theorem backup_inv (al : Bool) (o : List Bool) (fs g : RFS)
    (hsrc : fs.atSrc = some FileC.corig)
    (htmp : fs.atTmp = none ∨ fs.atTmp = some FileC.cenc)
    (hg : g ∈ (backupStage al o fs).1) : replaceInv al g := by
  unfold backupStage at hg
  split at hg
  · rcases hno : nextO o with ⟨b, o2⟩
    rw [hno] at hg
    cases b
    · simp at hg
    · have h2 : replaceInv al { fs with atSrc := none, atBak := fs.atSrc } := by
        refine ⟨?_, Or.inr (Or.inl ?_)⟩ <;> simp [origAt, bakAt, hsrc]
      rcases List.mem_cons.mp (by simpa using hg) with hg2 | hg2
      · subst hg2; exact h2
      · refine unlinkDest_inv al _ _ g h2 ?_ ?_ ?_ hg2
        · exact Or.inr (by simp [hsrc])
        · simp [bakAt, hsrc]
        · simpa using htmp
  · next h =>
    have h0 : fs.atSrc = none := by simpa using h
    rw [h0] at hsrc
    cases hsrc

/-- C3 amended: at every observable point of every `replace_file`
execution (any success/failure pattern of its filesystem calls, aliased
or distinct destination, any pre-existing destination content), the
original-at-its-path and a backup are never simultaneously present, and
the original, the backup and the destination are never simultaneously
all absent. -/
theorem C3_replace_invariant (al : Bool) (d0 : Option FileC) (o : List Bool) :
    ∀ g ∈ replaceStates al o (replaceInit d0), replaceInv al g := by
  intro g hg
  rcases List.mem_cons.mp hg with hg2 | hg2
  · subst hg2
    exact ⟨by simp [origAt, bakAt, replaceInit], Or.inl (by simp [origAt, replaceInit])⟩
  · have hstale : (replaceRun al o (replaceInit d0)).1
        = (backupStage al o (replaceInit d0)).1 := by
      unfold replaceRun staleBakStage
      simp [replaceInit]
    rw [hstale] at hg2
    exact backup_inv al o _ g (by simp [replaceInit])
      (Or.inr (by simp [replaceInit])) hg2

/-- Closed instance of `C3_replace_invariant` at the post-promotion
observable state of a successful non-aliased run. -/
theorem C3_replace_invariant_witness : replaceInv false postPromoteState :=
  C3_replace_invariant false none [true, true] postPromoteState (by decide)

/-! ## C4 -/

/-- C4 counterexample: a single fault at the destination unlink — which
lies inside the claimed window, after the original was renamed to the
backup and before the destination rename completed — rolls the original
back, but the pre-existing file at the distinct destination path
survives, so the destination path is NOT absent when the failure is
reported. -/
theorem C4_counterexample :
    (replaceFinal false [true, false, true]
        (replaceInit (some FileC.cother))).atSrc = some FileC.corig
    ∧ (replaceFinal false [true, false, true]
        (replaceInit (some FileC.cother))).atBak = none
    ∧ dstGet false (replaceFinal false [true, false, true]
        (replaceInit (some FileC.cother))) = some FileC.cother
    ∧ replaceRaised false [true, false, true]
        (replaceInit (some FileC.cother)) = true := by
  refine ⟨by decide, by decide, by decide, by decide⟩

/-- C4 amended: in every single-fault execution of `replace_file` — any
aliasing, any pre-existing destination content — in which the fault
strikes after the original was renamed to the backup and before the
destination rename completed, `replace_file` restores the original at
its original path, leaves no backup, reports the failure by raising, and
the encoded output never reaches the destination; the destination path
itself is exactly as the faulting step left it: untouched from entry
when the first in-window operation faulted (absent whenever it is a
distinct path that was empty at entry, while a pre-existing destination
file survives, as in the counterexample), and empty when the destination
unlink had already succeeded before the promote faulted.  The first
conjunct covers the fault at the first in-window operation (the
destination unlink when one runs, otherwise the promote); the second
covers the fault at the promote after a successful destination unlink,
which exists only in the non-aliased, pre-existing-destination case. -/
theorem C4_rollback_restores (al : Bool) (d0 : Option FileC) (rest : List Bool) :
    ((replaceFinal al (true :: false :: true :: rest) (replaceInit d0)).atSrc
        = some FileC.corig
      ∧ (replaceFinal al (true :: false :: true :: rest) (replaceInit d0)).atBak
        = none
      ∧ dstGet al (replaceFinal al (true :: false :: true :: rest)
          (replaceInit d0))
        = (if al then some FileC.corig else d0)
      ∧ replaceRaised al (true :: false :: true :: rest) (replaceInit d0) = true)
    ∧ (al = false → ∀ x : FileC, d0 = some x →
      (replaceFinal false (true :: true :: false :: true :: rest)
          (replaceInit d0)).atSrc = some FileC.corig
        ∧ (replaceFinal false (true :: true :: false :: true :: rest)
            (replaceInit d0)).atBak = none
        ∧ dstGet false (replaceFinal false (true :: true :: false :: true :: rest)
            (replaceInit d0)) = none
        ∧ replaceRaised false (true :: true :: false :: true :: rest)
            (replaceInit d0) = true) := by
  constructor
  · cases al <;> rcases d0 with _ | x <;>
      simp [replaceFinal, replaceStates, replaceRun, replaceRaised, staleBakStage,
        backupStage, unlinkDestStage, promoteStage, cleanupStage, rollbackStep,
        nextO, replaceInit, dstGet, dstSet]
  · rintro rfl x rfl
    simp [replaceFinal, replaceStates, replaceRun, replaceRaised, staleBakStage,
      backupStage, unlinkDestStage, promoteStage, cleanupStage, rollbackStep,
      nextO, replaceInit, dstGet, dstSet]

/-- Closed instance of `C4_rollback_restores` (non-aliased run over a
pre-existing destination file, empty oracle tail). -/
theorem C4_rollback_restores_witness :
    ((replaceFinal false [true, false, true]
        (replaceInit (some FileC.cother))).atSrc = some FileC.corig
      ∧ (replaceFinal false [true, false, true]
          (replaceInit (some FileC.cother))).atBak = none
      ∧ dstGet false (replaceFinal false [true, false, true]
          (replaceInit (some FileC.cother)))
        = (if false then some FileC.corig else some FileC.cother)
      ∧ replaceRaised false [true, false, true]
          (replaceInit (some FileC.cother)) = true)
    ∧ ((false : Bool) = false → ∀ x : FileC, some FileC.cother = some x →
      (replaceFinal false [true, true, false, true]
          (replaceInit (some FileC.cother))).atSrc = some FileC.corig
        ∧ (replaceFinal false [true, true, false, true]
            (replaceInit (some FileC.cother))).atBak = none
        ∧ dstGet false (replaceFinal false [true, true, false, true]
            (replaceInit (some FileC.cother))) = none
        ∧ replaceRaised false [true, true, false, true]
            (replaceInit (some FileC.cother)) = true) :=
  C4_rollback_restores false (some FileC.cother) []

/-! ## C9 -/

/-- Entry state of the no-replace branch: encoded output at the temporary
path, `pre` at the sibling output path, and arbitrary content elsewhere. -/
def nrInit (e : FileC) (pre : Option FileC) (others : Nat → Option FileC) : NFS :=
  fun p => if p = nrTmpP then some e else if p = nrFinalP then pre else others p

/-- C9: in every execution of the no-replace branch (any success/failure
pattern), every path other than the temporary file and the sibling
output path `path.with_suffix(chosen_ext)` is untouched at every
observable point; in the successful run over a pre-existing output file,
that file is deleted first (second state: output slot empty, temporary
still present) and only then is the temporary moved into place (third
state: output slot holds the encoded file, temporary gone).  When the
source's extension already equals the chosen extension, the sibling
output path IS the original path, so the pre-existing file deleted is
the source itself. -/
theorem C9_no_replace_frame (e p0 : FileC) (pre : Option FileC)
    (others : Nat → Option FileC) :
    (∀ (o : List Bool) (q : Nat), q ≠ nrTmpP → q ≠ nrFinalP →
      ∀ g ∈ nrStates o (nrInit e pre others), g q = others q)
    ∧ (nrStates [true, true] (nrInit e (some p0) others)).map
        (fun g => (g nrTmpP, g nrFinalP))
      = [(some e, some p0), (some e, none), (none, some e)]
    ∧ (∀ pa : PPath, pa.sfx = chooseExt pa →
        pa.withSuffix (chooseExt pa) = pa) := by
  refine ⟨?_, ?_, ?_⟩
  · intro o q hq1 hq2
    simp only [nrTmpP, nrFinalP] at hq1 hq2
    rcases o with _ | ⟨_ | _, _ | ⟨_ | _, _ | ⟨_ | _, o⟩⟩⟩ <;>
      rcases pre with _ | x <;>
      simp [nrStates, nrRun, nrMoveStage, nrCleanup, nextO, nrInit,
        nrTmpP, nrFinalP, List.forall_mem_cons, hq1, hq2]
  · simp [nrStates, nrRun, nrMoveStage, nrCleanup, nextO, nrInit, nrTmpP, nrFinalP]
  · intro pa hpa
    cases pa with
    | mk st sf =>
      simp only [PPath.withSuffix]
      rw [← hpa]

/-- Closed instance of `C9_no_replace_frame` at concrete contents and an
empty rest-of-filesystem. -/
theorem C9_no_replace_frame_witness :
    (∀ (o : List Bool) (q : Nat), q ≠ nrTmpP → q ≠ nrFinalP →
      ∀ g ∈ nrStates o (nrInit FileC.cenc (some FileC.cother) (fun _ => none)),
        g q = (fun _ => none : Nat → Option FileC) q)
    ∧ (nrStates [true, true] (nrInit FileC.cenc (some FileC.cother)
        (fun _ => none))).map (fun g => (g nrTmpP, g nrFinalP))
      = [(some FileC.cenc, some FileC.cother), (some FileC.cenc, none),
         (none, some FileC.cenc)]
    ∧ (∀ pa : PPath, pa.sfx = chooseExt pa →
        pa.withSuffix (chooseExt pa) = pa) :=
  C9_no_replace_frame FileC.cenc FileC.cother (some FileC.cother) (fun _ => none)

/-! ## Helper lemmas for argument-vector claims (C5, C10) -/

theorem segStarts_append_self (pat suf : List String) :
    segStarts pat (pat ++ suf) = true := by
  induction pat with
  | nil => rfl
  | cons p ps ih => simp [segStarts, ih]

theorem hasSeg_here (pat suf : List String) : hasSeg pat (pat ++ suf) = true := by
  cases pat with
  | nil => cases suf <;> simp [hasSeg, segStarts]
  | cons p ps =>
    have h := segStarts_append_self (p :: ps) suf
    simp only [List.cons_append] at h
    simp [hasSeg, h]

theorem hasSeg_cons (pat : List String) (x : String) (l : List String)
    (h : hasSeg pat l = true) : hasSeg pat (x :: l) = true := by
  simp [hasSeg, h]

theorem hasSeg_append_left (pat pre l : List String) (h : hasSeg pat l = true) :
    hasSeg pat (pre ++ l) = true := by
  induction pre with
  | nil => exact h
  | cons x xs ih => simp [hasSeg, ih]

theorem strAppend_ne_short (a b t : String) (hlen : t.data.length < a.data.length) :
    (a ++ b) ≠ t := by
  intro h
  have h2 := congrArg (fun s : String => s.data.length) h
  simp only [strAppend_data, List.length_append] at h2
  omega

theorem acTok_ne_maxrate (s : String) : ("-ac:a:" ++ s) ≠ "-maxrate" := by
  intro h
  have h2 := congrArg String.data h
  rw [strAppend_data] at h2
  rw [show ("-ac:a:" : String).data = ['-', 'a', 'c', ':', 'a', ':'] from rfl,
      show ("-maxrate" : String).data = ['-', 'm', 'a', 'x', 'r', 'a', 't', 'e'] from rfl] at h2
  simp at h2

theorem acTok_ne_preset (s : String) : ("-ac:a:" ++ s) ≠ "-preset" := by
  intro h
  have h2 := congrArg String.data h
  rw [strAppend_data] at h2
  rw [show ("-ac:a:" : String).data = ['-', 'a', 'c', ':', 'a', ':'] from rfl,
      show ("-preset" : String).data = ['-', 'p', 'r', 'e', 's', 'e', 't'] from rfl] at h2
  simp at h2

theorem audioFixOne_tokens (k : Nat) (a : AudioStream) :
    ∀ x ∈ (audioFixOne k a).1,
      x = "0" ∨ x = "1" ∨ x = "2" ∨ x = channelmapFilter
        ∨ x = "-mapping_family:a:" ++ toString k
        ∨ x = "-filter:a:" ++ toString k
        ∨ x = "-ac:a:" ++ toString k := by
  intro x hx
  dsimp only [audioFixOne] at hx
  split_ifs at hx <;>
    simp only [List.mem_cons, List.not_mem_nil, or_false] at hx <;> tauto

theorem audioFixAux_no_rate_tokens (streams : List AudioStream) :
    ∀ k x, x ∈ audioFixAux k streams →
      x ≠ "-cq" ∧ x ≠ "-b:v" ∧ x ≠ "-maxrate" ∧ x ≠ "-preset" := by
  induction streams with
  | nil => intro k x hx; simp [audioFixAux] at hx
  | cons a rest ih =>
    intro k x hx
    rcases List.mem_append.mp hx with h | h
    · rcases audioFixOne_tokens k a x h with rfl | rfl | rfl | rfl | rfl | rfl | rfl
      · exact ⟨by decide, by decide, by decide, by decide⟩
      · exact ⟨by decide, by decide, by decide, by decide⟩
      · exact ⟨by decide, by decide, by decide, by decide⟩
      · exact ⟨by decide, by decide, by decide, by decide⟩
      · exact ⟨strAppend_ne_short _ _ _ (by decide), strAppend_ne_short _ _ _ (by decide),
          strAppend_ne_short _ _ _ (by decide), strAppend_ne_short _ _ _ (by decide)⟩
      · exact ⟨strAppend_ne_short _ _ _ (by decide), strAppend_ne_short _ _ _ (by decide),
          strAppend_ne_short _ _ _ (by decide), strAppend_ne_short _ _ _ (by decide)⟩
      · exact ⟨strAppend_ne_short _ _ _ (by decide), strAppend_ne_short _ _ _ (by decide),
          acTok_ne_maxrate _, acTok_ne_preset _⟩
    · exact ih (k + 1) x h

theorem cq_notin_audioFix (streams : List AudioStream) :
    "-cq" ∉ audioFixArgs streams :=
  fun hx => (audioFixAux_no_rate_tokens streams 0 "-cq" hx).1 rfl

theorem bv_notin_audioFix (streams : List AudioStream) :
    "-b:v" ∉ audioFixArgs streams :=
  fun hx => (audioFixAux_no_rate_tokens streams 0 "-b:v" hx).2.1 rfl

theorem maxrate_notin_audioFix (streams : List AudioStream) :
    "-maxrate" ∉ audioFixArgs streams :=
  fun hx => (audioFixAux_no_rate_tokens streams 0 "-maxrate" hx).2.2.1 rfl

theorem preset_notin_audioFix (streams : List AudioStream) :
    "-preset" ∉ audioFixArgs streams :=
  fun hx => (audioFixAux_no_rate_tokens streams 0 "-preset" hx).2.2.2 rfl

theorem vPix_mem (info : MediaInfo) :
    vPix info ∈ ["p010le", "yuv420p", info.pix_fmt.getD ""] := by
  unfold vPix pyOrStr
  split_ifs <;> simp

theorem colorArgs_tokens (info : MediaInfo) :
    ∀ x ∈ colorArgs info,
      x = "-color_primaries" ∨ x = "-color_trc" ∨ x = "-colorspace"
        ∨ x = info.color_primaries.getD "" ∨ x = info.color_trc.getD ""
        ∨ x = info.colorspace.getD "" := by
  unfold colorArgs
  split_ifs <;> intro x hx <;>
    simp only [List.mem_append, List.mem_cons, List.not_mem_nil, or_false] at hx <;>
    tauto

theorem presetArgs_tokens (e : List String) :
    ∀ x ∈ presetArgs e, x = "-preset" ∨ x = "p7" := by
  unfold presetArgs
  split_ifs <;> intro x hx <;>
    simp only [List.mem_cons, List.not_mem_nil, or_false] at hx
  tauto

theorem aqArgs_tokens (n : List String) :
    ∀ x ∈ aqArgs n, x = "-spatial_aq" ∨ x = "-temporal_aq" ∨ x = "1" := by
  unfold aqArgs
  split_ifs <;> intro x hx <;>
    simp only [List.mem_append, List.mem_cons, List.not_mem_nil, or_false] at hx <;>
    tauto

/-! ## C5 -/

/-- The two bitrate-mode argument names and the quality-mode argument
name; the opacity hypotheses of the rate-control claim quantify over
these. -/
def rcTokens : List String := ["-cq", "-b:v", "-maxrate"]

/-- C5: every built command carries exactly one rate-control mode,
selected by the (Python-truthy) presence of the target bitrate: with a
bitrate, the consecutive arguments `-rc vbr -b:v B -maxrate B
-b_ref_mode middle` appear and no `-cq` argument does; without one, the
consecutive arguments `-cq Q -rc vbr -b_ref_mode middle` appear (Q the
supplied quality or the default 30) and no `-b:v` or `-maxrate`
argument does.  The hypothesis `hop` states that the opaque string
inputs (paths, tool name, bitrate strings, color/pixel metadata, user
extra args) do not themselves collide with the three rate-control
tokens. -/
theorem C5_rate_control (srcStr dstStr : String) (info : MediaInfo) (cq : Option Int)
    (targetBitrate : Option String) (audioBitrate : String)
    (extraVideoArgs : List String) (ffmpegBin : String) (nvencOpts : List String)
    (hop : ∀ t ∈ rcTokens,
      t ≠ srcStr ∧ t ≠ dstStr ∧ t ≠ ffmpegBin ∧ t ≠ audioBitrate
        ∧ t ∉ extraVideoArgs
        ∧ t ≠ info.color_primaries.getD "" ∧ t ≠ info.color_trc.getD ""
        ∧ t ≠ info.colorspace.getD "" ∧ t ≠ info.pix_fmt.getD ""
        ∧ t ≠ targetBitrate.getD "" ∧ t ≠ toString (cq.getD 30)) :
    (pyTruthyS targetBitrate = true →
      hasSeg ["-rc", "vbr", "-b:v", targetBitrate.getD "", "-maxrate",
          targetBitrate.getD "", "-b_ref_mode", "middle"]
        (buildFfmpegCmd srcStr dstStr info cq targetBitrate audioBitrate
          extraVideoArgs ffmpegBin nvencOpts) = true
      ∧ "-cq" ∉ buildFfmpegCmd srcStr dstStr info cq targetBitrate audioBitrate
          extraVideoArgs ffmpegBin nvencOpts)
    ∧ (pyTruthyS targetBitrate = false →
      hasSeg ["-cq", toString (cq.getD 30), "-rc", "vbr", "-b_ref_mode", "middle"]
        (buildFfmpegCmd srcStr dstStr info cq targetBitrate audioBitrate
          extraVideoArgs ffmpegBin nvencOpts) = true
      ∧ "-b:v" ∉ buildFfmpegCmd srcStr dstStr info cq targetBitrate audioBitrate
          extraVideoArgs ffmpegBin nvencOpts
      ∧ "-maxrate" ∉ buildFfmpegCmd srcStr dstStr info cq targetBitrate audioBitrate
          extraVideoArgs ffmpegBin nvencOpts) := by
  obtain ⟨q1, q2, q3, q4, q5, q6, q7, q8, q9, q10, q11⟩ := hop "-cq" (by decide)
  obtain ⟨b1, b2, b3, b4, b5, b6, b7, b8, b9, b10, b11⟩ := hop "-b:v" (by decide)
  obtain ⟨m1, m2, m3, m4, m5, m6, m7, m8, m9, m10, m11⟩ := hop "-maxrate" (by decide)
  have hvm : vPix info = "p010le" ∨ vPix info = "yuv420p"
      ∨ vPix info = info.pix_fmt.getD "" := by
    simpa using vPix_mem info
  constructor
  · intro htb
    have hrate : rateArgs cq targetBitrate
        = ["-rc", "vbr", "-b:v", targetBitrate.getD "", "-maxrate",
           targetBitrate.getD "", "-b_ref_mode", "middle"] := by
      unfold rateArgs
      rw [if_pos htb]
    constructor
    · simp only [buildFfmpegCmd, videoArgs, List.append_assoc, List.cons_append,
        List.nil_append]
      repeat
        first
        | (rw [hrate]; exact hasSeg_here _ _)
        | apply hasSeg_cons
        | apply hasSeg_append_left
    · have h1 : "-cq" ∉ presetArgs extraVideoArgs := by
        intro hx
        rcases presetArgs_tokens _ _ hx with h | h <;> simp at h
      have h2 : "-cq" ∉ aqArgs nvencOpts := by
        intro hx
        rcases aqArgs_tokens _ _ hx with h | h | h <;> simp at h
      have h3 : "-cq" ∉ colorArgs info := by
        intro hx
        rcases colorArgs_tokens _ _ hx with h | h | h | h | h | h
        · simp at h
        · simp at h
        · simp at h
        · exact q6 h
        · exact q7 h
        · exact q8 h
      have h4 : "-cq" ≠ vPix info := by
        intro he
        rcases hvm with h | h | h
        · rw [h] at he; exact absurd he (by decide)
        · rw [h] at he; exact absurd he (by decide)
        · rw [h] at he; exact q9 he
      have h5 : "-cq" ∉ audioFixArgs info.audio_streams := cq_notin_audioFix _
      have h6 : "-cq" ∉ rateArgs cq targetBitrate := by
        rw [hrate]
        simp [q10]
      simp [buildFfmpegCmd, videoArgs, q1, q2, q3, q4, q5, h1, h2, h3, h4, h5, h6]
  · intro htb
    have hrate : rateArgs cq targetBitrate
        = ["-cq", toString (cq.getD 30), "-rc", "vbr", "-b_ref_mode", "middle"] := by
      unfold rateArgs
      rw [if_neg (by simp [htb])]
    constructor
    · simp only [buildFfmpegCmd, videoArgs, List.append_assoc, List.cons_append,
        List.nil_append]
      repeat
        first
        | (rw [hrate]; exact hasSeg_here _ _)
        | apply hasSeg_cons
        | apply hasSeg_append_left
    · have h1b : "-b:v" ∉ presetArgs extraVideoArgs := by
        intro hx
        rcases presetArgs_tokens _ _ hx with h | h <;> simp at h
      have h2b : "-b:v" ∉ aqArgs nvencOpts := by
        intro hx
        rcases aqArgs_tokens _ _ hx with h | h | h <;> simp at h
      have h3b : "-b:v" ∉ colorArgs info := by
        intro hx
        rcases colorArgs_tokens _ _ hx with h | h | h | h | h | h
        · simp at h
        · simp at h
        · simp at h
        · exact b6 h
        · exact b7 h
        · exact b8 h
      have h4b : "-b:v" ≠ vPix info := by
        intro he
        rcases hvm with h | h | h
        · rw [h] at he; exact absurd he (by decide)
        · rw [h] at he; exact absurd he (by decide)
        · rw [h] at he; exact b9 he
      have h6b : "-b:v" ∉ rateArgs cq targetBitrate := by
        rw [hrate]
        simp [b11]
      have h1m : "-maxrate" ∉ presetArgs extraVideoArgs := by
        intro hx
        rcases presetArgs_tokens _ _ hx with h | h <;> simp at h
      have h2m : "-maxrate" ∉ aqArgs nvencOpts := by
        intro hx
        rcases aqArgs_tokens _ _ hx with h | h | h <;> simp at h
      have h3m : "-maxrate" ∉ colorArgs info := by
        intro hx
        rcases colorArgs_tokens _ _ hx with h | h | h | h | h | h
        · simp at h
        · simp at h
        · simp at h
        · exact m6 h
        · exact m7 h
        · exact m8 h
      have h4m : "-maxrate" ≠ vPix info := by
        intro he
        rcases hvm with h | h | h
        · rw [h] at he; exact absurd he (by decide)
        · rw [h] at he; exact absurd he (by decide)
        · rw [h] at he; exact m9 he
      have h6m : "-maxrate" ∉ rateArgs cq targetBitrate := by
        rw [hrate]
        simp [m11]
      refine ⟨?_, ?_⟩
      · simp [buildFfmpegCmd, videoArgs, b1, b2, b3, b4, b5, h1b, h2b, h3b, h4b,
          h6b, bv_notin_audioFix]
      · simp [buildFfmpegCmd, videoArgs, m1, m2, m3, m4, m5, h1m, h2m, h3m, h4m,
          h6m, maxrate_notin_audioFix]

/-- Closed instance of `C5_rate_control`: bitrate 3000k over a plain
description. -/
theorem C5_rate_control_witness :
    (pyTruthyS (some "3000k") = true →
      hasSeg ["-rc", "vbr", "-b:v", (some "3000k" : Option String).getD "",
          "-maxrate", (some "3000k" : Option String).getD "", "-b_ref_mode",
          "middle"]
        (buildFfmpegCmd "in.mp4" "out.mkv" mediaFixtureB none (some "3000k")
          "128k" [] "ffmpeg" []) = true
      ∧ "-cq" ∉ buildFfmpegCmd "in.mp4" "out.mkv" mediaFixtureB none
          (some "3000k") "128k" [] "ffmpeg" [])
    ∧ (pyTruthyS (some "3000k") = false →
      hasSeg ["-cq", toString ((none : Option Int).getD 30), "-rc", "vbr",
          "-b_ref_mode", "middle"]
        (buildFfmpegCmd "in.mp4" "out.mkv" mediaFixtureB none (some "3000k")
          "128k" [] "ffmpeg" []) = true
      ∧ "-b:v" ∉ buildFfmpegCmd "in.mp4" "out.mkv" mediaFixtureB none
          (some "3000k") "128k" [] "ffmpeg" []
      ∧ "-maxrate" ∉ buildFfmpegCmd "in.mp4" "out.mkv" mediaFixtureB none
          (some "3000k") "128k" [] "ffmpeg" []) :=
  C5_rate_control "in.mp4" "out.mkv" mediaFixtureB none (some "3000k") "128k"
    [] "ffmpeg" [] (by decide)

theorem any_preset_false (l : List String) (h : "-preset" ∉ l) :
    (l.any fun a => a == "-preset") = false := by
  cases hres : l.any fun a => a == "-preset" with
  | false => rfl
  | true =>
    obtain ⟨a, ha, hae⟩ := List.any_eq_true.mp hres
    have ha2 : a = "-preset" := by simpa using hae
    exact absurd (ha2 ▸ ha) h

/-! ## C10 -/

/-- Everything `build_ffmpeg_cmd` emits before the user's extra video
arguments. -/
def cmdBeforeExtras (srcStr : String) (info : MediaInfo) (cq : Option Int)
    (targetBitrate : Option String) (extraVideoArgs : List String)
    (ffmpegBin : String) (nvencOpts : List String) : List String :=
  [ffmpegBin, "-hide_banner", "-y", "-nostdin", "-i", srcStr]
    ++ ["-map_metadata", "0", "-map_chapters", "0"]
    ++ ["-map", "0:v?", "-map", "0:a?", "-map", "0:s?", "-map", "0:t?"]
    ++ ["-c:v", "av1_nvenc"] ++ presetArgs extraVideoArgs
    ++ rateArgs cq targetBitrate ++ aqArgs nvencOpts
    ++ ["-bf", "3", "-pix_fmt", vPix info] ++ colorArgs info

/-- Everything `build_ffmpeg_cmd` emits after the user's extra video
arguments. -/
def cmdAfterExtras (dstStr : String) (info : MediaInfo)
    (audioBitrate : String) : List String :=
  ["-c:a", "libopus", "-b:a", audioBitrate, "-vbr", "on", "-application",
   "audio"]
    ++ ["-c:s", "copy", "-c:t", "copy"]
    ++ audioFixArgs info.audio_streams ++ [dstStr]

/-- C10 counterexample: with user extras `["-preset", "p7"]` the built
vector does contain the consecutive arguments `-preset p7` (coming from
the extras themselves), yet the extras contain the token `-preset` — so
the claimed equivalence (vector contains `-preset p7` iff extras lack
`-preset`) is false. -/
theorem C10_counterexample :
    ¬(hasSeg ["-preset", "p7"]
        (buildFfmpegCmd "in.mp4" "out.mkv" mediaFixtureB none none "128k"
          ["-preset", "p7"] "ffmpeg" []) = true
      ↔ "-preset" ∉ (["-preset", "p7"] : List String)) := by
  decide

/-- C10 amended: when the extras lack the exact token `-preset`, the
built vector contains the built-in default `-preset p7`; in every case
the number of `-preset` tokens in the vector is the number in the extras
plus one exactly when the extras lack the token (so when the user
supplies a preset, the only `-preset` occurrences are the user's); and
the extras are appended after all built-in video arguments (and before
the audio/subtitle section).  `hop` assumes the opaque string inputs do
not collide with the token `-preset`. -/
theorem C10_preset_policy (srcStr dstStr : String) (info : MediaInfo)
    (cq : Option Int) (targetBitrate : Option String) (audioBitrate : String)
    (extraVideoArgs : List String) (ffmpegBin : String) (nvencOpts : List String)
    (hop : "-preset" ≠ srcStr ∧ "-preset" ≠ dstStr ∧ "-preset" ≠ ffmpegBin
      ∧ "-preset" ≠ audioBitrate ∧ "-preset" ≠ info.color_primaries.getD ""
      ∧ "-preset" ≠ info.color_trc.getD "" ∧ "-preset" ≠ info.colorspace.getD ""
      ∧ "-preset" ≠ info.pix_fmt.getD "" ∧ "-preset" ≠ targetBitrate.getD ""
      ∧ "-preset" ≠ toString (cq.getD 30)) :
    ("-preset" ∉ extraVideoArgs →
      hasSeg ["-preset", "p7"]
        (buildFfmpegCmd srcStr dstStr info cq targetBitrate audioBitrate
          extraVideoArgs ffmpegBin nvencOpts) = true)
    ∧ (buildFfmpegCmd srcStr dstStr info cq targetBitrate audioBitrate
        extraVideoArgs ffmpegBin nvencOpts).count "-preset"
      = extraVideoArgs.count "-preset"
        + (if "-preset" ∈ extraVideoArgs then 0 else 1)
    ∧ buildFfmpegCmd srcStr dstStr info cq targetBitrate audioBitrate
        extraVideoArgs ffmpegBin nvencOpts
      = cmdBeforeExtras srcStr info cq targetBitrate extraVideoArgs ffmpegBin
          nvencOpts
        ++ extraVideoArgs ++ cmdAfterExtras dstStr info audioBitrate := by
  obtain ⟨p1, p2, p3, p4, p5, p6, p7, p8, p9, p10⟩ := hop
  have hr0 : "-preset" ∉ rateArgs cq targetBitrate := by
    unfold rateArgs
    split_ifs <;> simp [p9, p10]
  have ha0 : "-preset" ∉ aqArgs nvencOpts := by
    intro hx
    rcases aqArgs_tokens _ _ hx with h | h | h <;> simp at h
  have hc0 : "-preset" ∉ colorArgs info := by
    intro hx
    rcases colorArgs_tokens _ _ hx with h | h | h | h | h | h
    · simp at h
    · simp at h
    · simp at h
    · exact p5 h
    · exact p6 h
    · exact p7 h
  have hx0 : "-preset" ≠ vPix info := by
    intro he
    rcases (by simpa using vPix_mem info :
        vPix info = "p010le" ∨ vPix info = "yuv420p"
          ∨ vPix info = info.pix_fmt.getD "") with h | h | h
    · rw [h] at he; exact absurd he (by decide)
    · rw [h] at he; exact absurd he (by decide)
    · rw [h] at he; exact p8 he
  have hau0 : "-preset" ∉ audioFixArgs info.audio_streams :=
    preset_notin_audioFix _
  have hsplit : buildFfmpegCmd srcStr dstStr info cq targetBitrate audioBitrate
      extraVideoArgs ffmpegBin nvencOpts
      = cmdBeforeExtras srcStr info cq targetBitrate extraVideoArgs ffmpegBin
          nvencOpts
        ++ extraVideoArgs ++ cmdAfterExtras dstStr info audioBitrate := by
    simp only [buildFfmpegCmd, videoArgs, cmdBeforeExtras, cmdAfterExtras,
      List.append_assoc]
  have hafter : "-preset" ∉ cmdAfterExtras dstStr info audioBitrate := by
    simp [cmdAfterExtras, p2, p4, hau0]
  refine ⟨?_, ?_, hsplit⟩
  · intro hmem
    have hpre : presetArgs extraVideoArgs = ["-preset", "p7"] := by
      unfold presetArgs
      rw [any_preset_false _ hmem]
      rfl
    simp only [buildFfmpegCmd, videoArgs, List.append_assoc, List.cons_append,
      List.nil_append]
    repeat
      first
      | (rw [hpre]; exact hasSeg_here _ _)
      | apply hasSeg_cons
      | apply hasSeg_append_left
  · rw [hsplit, List.count_append, List.count_append,
      List.count_eq_zero_of_not_mem hafter]
    by_cases hm : "-preset" ∈ extraVideoArgs
    · have hany : (extraVideoArgs.any fun a => a == "-preset") = true :=
        List.any_eq_true.mpr ⟨"-preset", hm, by simp⟩
      have hpre : presetArgs extraVideoArgs = [] := by
        unfold presetArgs
        rw [hany]
        rfl
      have hb0 : "-preset" ∉ cmdBeforeExtras srcStr info cq targetBitrate
          extraVideoArgs ffmpegBin nvencOpts := by
        simp [cmdBeforeExtras, hpre, p1, p3, hr0, ha0, hc0, hx0]
      rw [List.count_eq_zero_of_not_mem hb0]
      simp [hm]
    · have hpre : presetArgs extraVideoArgs = ["-preset", "p7"] := by
        unfold presetArgs
        rw [any_preset_false _ hm]
        rfl
      have hb1 : (cmdBeforeExtras srcStr info cq targetBitrate extraVideoArgs
          ffmpegBin nvencOpts).count "-preset" = 1 := by
        unfold cmdBeforeExtras
        rw [hpre]
        simp [List.count_append, List.count_cons,
          List.count_eq_zero_of_not_mem hr0, List.count_eq_zero_of_not_mem ha0,
          List.count_eq_zero_of_not_mem hc0, Ne.symm p1, Ne.symm p3,
          Ne.symm hx0]
      rw [hb1]
      simp [hm]
      omega

/-- Closed instance of `C10_preset_policy` at concrete inputs with no
extras. -/
theorem C10_preset_policy_witness :
    (("-preset" : String) ∉ ([] : List String) →
      hasSeg ["-preset", "p7"]
        (buildFfmpegCmd "in.mp4" "out.mkv" mediaFixtureB none none "128k" []
          "ffmpeg" []) = true)
    ∧ (buildFfmpegCmd "in.mp4" "out.mkv" mediaFixtureB none none "128k" []
        "ffmpeg" []).count "-preset"
      = ([] : List String).count "-preset"
        + (if "-preset" ∈ ([] : List String) then 0 else 1)
    ∧ buildFfmpegCmd "in.mp4" "out.mkv" mediaFixtureB none none "128k" []
        "ffmpeg" []
      = cmdBeforeExtras "in.mp4" mediaFixtureB none none [] "ffmpeg" []
        ++ [] ++ cmdAfterExtras "out.mkv" mediaFixtureB "128k" :=
  C10_preset_policy "in.mp4" "out.mkv" mediaFixtureB none none "128k" []
    "ffmpeg" [] (by refine ⟨?_, ?_, ?_, ?_, ?_, ?_, ?_, ?_, ?_, ?_⟩ <;> decide)
